import Mathlib

/-!
Verification of the certificate API views and the proctored-exam permission
contract of this repository.

The embedding follows `lms/djangoapps/certificates/apis/v0/views.py`
(classes `CertificatesDetailView` and `CertificatesListView`) and the
permission contract exercised by
`lms/djangoapps/courseware/tests/test_rules.py`.

External collaborators (the certificate API module, the course-overview
store, the user model and the account-visibility helper) are modelled as an
environment `Env` of opaque functions; the view logic itself is translated
line by line.
-/

/-- A JSON-like value appearing in a response body: a string, a boolean or a
number (timestamps are modelled as naturals). -/
inductive Value where
  | s (v : String)
  | b (v : Bool)
  | n (v : Nat)
deriving DecidableEq

/-- A response body: a single JSON object (a key-ordered field list, as a
Python dict literal) or a JSON array of objects. -/
inductive Body where
  | obj (fields : List (String × Value))
  | arr (items : List (List (String × Value)))
deriving DecidableEq

/-- A DRF `Response`: HTTP status and body.  `Response(data)` defaults to
status 200. -/
structure Response where
  status : Nat
  body : Body
deriving DecidableEq

/-- An opaque course key, as produced by `CourseKey.from_string`. -/
structure CourseKey where
  str : String
deriving DecidableEq

/-- `six.text_type` applied to a course key: its string rendering. -/
def text_type (k : CourseKey) : String := k.str

/-- A certificate record as returned by `get_certificate_for_user` /
`get_certificates_for_user` (a dict with these keys). -/
structure UserCert where
  username : String
  course_key : CourseKey
  type : String
  created : Nat
  modified : Nat
  status : String
  is_passing : Bool
  download_url : String
  grade : String
deriving DecidableEq

/-- A course overview row, as used by the list view. -/
structure CourseOverview where
  display_name_with_default : String
  display_org_with_default : String
deriving DecidableEq

/-- A user profile (opaque to this code; only passed to `visible_fields`). -/
structure Profile where
  id : Nat
deriving DecidableEq

/-- A user row from the user model, with its related profile. -/
structure UserRec where
  username : String
  profile : Profile
deriving DecidableEq

/-- The authenticated requesting user attached to the request. -/
structure RequestUser where
  username : String
  is_staff : Bool
deriving DecidableEq

/-- The environment of external collaborators used by the views:
`CourseKey.from_string` (None = `InvalidKeyError`), the certificate API
functions, the course-overview store backing `get_from_ids_if_exists`,
`certificates_viewable_for_course`, the user model lookup, and
`visible_fields`. -/
structure Env where
  from_string : String → Option CourseKey
  get_certificate_for_user : String → CourseKey → Option UserCert
  get_certificates_for_user : String → List UserCert
  course_overviews : CourseKey → Option CourseOverview
  certificates_viewable_for_course : CourseOverview → Bool
  get_user : String → Option UserRec
  visible_fields : Profile → UserRec → List String

/-- First-some choice on options (Python `dict` update semantics helper). -/
def optOr {α : Type} (a b : Option α) : Option α :=
  match a with
  | some x => some x
  | none => b

/-- Python dict assignment `d[k] = v`: overwrite in place if the key is
present (keeping its position in insertion order), else append. -/
def dictInsert (d : List (CourseKey × UserCert)) (k : CourseKey) (v : UserCert) :
    List (CourseKey × UserCert) :=
  match d with
  | [] => [(k, v)]
  | (k', v') :: rest =>
    if k' = k then (k', v) :: rest else (k', v') :: dictInsert rest k v

/-- Python dict read `d[k]` / `d.get(k)`. -/
def dictGet (d : List (CourseKey × UserCert)) (k : CourseKey) : Option UserCert :=
  match d with
  | [] => none
  | (k', v) :: rest => if k' = k then some v else dictGet rest k

/-- The last certificate in `certs` that is passing and has course key `k`
(the value retained by the overwriting dict build in the list view). -/
def lastPassing (certs : List UserCert) (k : CourseKey) : Option UserCert :=
  match certs with
  | [] => none
  | c :: cs =>
    optOr (lastPassing cs k)
      (if c.is_passing && decide (c.course_key = k) then some c else none)

/-- A certificate enriched with the course-overview display fields the list
view writes into the dict before serialising. -/
structure ViewableCert where
  cert : UserCert
  course_display_name : String
  course_organization : String
deriving DecidableEq

/-- Insert into a list sorted ascending by `created`. -/
def insertByCreated (vc : ViewableCert) : List ViewableCert → List ViewableCert
  | [] => [vc]
  | x :: xs =>
    if vc.cert.created < x.cert.created then vc :: x :: xs
    else x :: insertByCreated vc xs

/-- `list.sort(key=lambda certificate: certificate["created"])`: sort
ascending by creation timestamp. -/
def sortByCreated : List ViewableCert → List ViewableCert
  | [] => []
  | vc :: rest => insertByCreated vc (sortByCreated rest)

/-- `CourseOverview.get_from_ids_if_exists(ids)`: the overviews of the given
ids that exist, keyed by id. -/
def get_from_ids_if_exists (env : Env) (ids : List CourseKey) :
    List (CourseKey × CourseOverview) :=
  ids.filterMap (fun k => (env.course_overviews k).map (fun ov => (k, ov)))

/-- `CertificatesDetailView.get`'s success body: the dict literal of
`views.py` lines 120-131 (eight fields populated from the record). -/
def detail_fields (user_cert : UserCert) : List (String × Value) :=
  [ ("username", Value.s user_cert.username),
    ("course_id", Value.s (text_type user_cert.course_key)),
    ("certificate_type", Value.s user_cert.type),
    ("created_date", Value.n user_cert.created),
    ("status", Value.s user_cert.status),
    ("is_passing", Value.b user_cert.is_passing),
    ("download_url", Value.s user_cert.download_url),
    ("grade", Value.s user_cert.grade) ]

/-- `CertificatesDetailView.get` (views.py lines 93-131): parse the course
id, look up the certificate, and answer 404/`course_id_not_valid`,
404/`no_certificate_for_user`, or 200 with the certificate fields. -/
def detailViewGet (env : Env) (username course_id : String) : Response :=
  match env.from_string course_id with
  | none =>
    { status := 404, body := Body.obj [("error_code", Value.s "course_id_not_valid")] }
  | some course_key =>
    match env.get_certificate_for_user username course_key with
    | none =>
      { status := 404, body := Body.obj [("error_code", Value.s "no_certificate_for_user")] }
    | some user_cert => { status := 200, body := Body.obj (detail_fields user_cert) }

/-- `CertificatesListView._viewable_by_requestor` (views.py lines 241-254):
the requestor may view the list if the target user exists and the requestor
is the owner, is staff, or the target's visible fields include
`course_certificates`. -/
def viewable_by_requestor (env : Env) (request_user : RequestUser) (username : String) : Bool :=
  match env.get_user username with
  | none => false
  | some user =>
    let is_owner := request_user.username = username
    let certificates_viewable := "course_certificates" ∈ env.visible_fields user.profile user
    decide is_owner || request_user.is_staff || decide certificates_viewable

/-- The `passing_certificates` dict of views.py lines 261-265: fold the
user's certificates left to right, keeping passing ones keyed by course key
(a later assignment to the same key overwrites the earlier value). -/
def passingDict (env : Env) (username : String) : List (CourseKey × UserCert) :=
  (env.get_certificates_for_user username).foldl
    (fun d c => if c.is_passing then dictInsert d c.course_key c else d) []

/-- The `viewable_certificates` list of views.py lines 267-273: for each
existing course overview of a passing course key, if the course's
certificates are viewable, take the dict's certificate and attach the
display name and organization. -/
def viewableList (env : Env) (username : String) : List ViewableCert :=
  (get_from_ids_if_exists env ((passingDict env username).map Prod.fst)).filterMap
    (fun p =>
      if env.certificates_viewable_for_course p.2 then
        (dictGet (passingDict env username) p.1).map (fun c =>
          { cert := c,
            course_display_name := p.2.display_name_with_default,
            course_organization := p.2.display_org_with_default })
      else none)

/-- `CertificatesListView._get_certificates_for_user` (views.py lines
256-276): the viewable passing certificates, sorted ascending by creation
timestamp. -/
def get_certificates_for_user_view (env : Env) (username : String) : List ViewableCert :=
  sortByCreated (viewableList env username)

/-- One entry of the list response: the dict literal of views.py lines
225-237 (eleven keys, including `modified_date` and the string rendering of
the course key). -/
def cert_entry (vc : ViewableCert) : List (String × Value) :=
  [ ("username", Value.s vc.cert.username),
    ("course_id", Value.s (text_type vc.cert.course_key)),
    ("course_display_name", Value.s vc.course_display_name),
    ("course_organization", Value.s vc.course_organization),
    ("certificate_type", Value.s vc.cert.type),
    ("created_date", Value.n vc.cert.created),
    ("modified_date", Value.n vc.cert.modified),
    ("status", Value.s vc.cert.status),
    ("is_passing", Value.b vc.cert.is_passing),
    ("download_url", Value.s vc.cert.download_url),
    ("grade", Value.s vc.cert.grade) ]

/-- `CertificatesListView.get` (views.py lines 211-239): empty list unless
viewable by the requestor, else the serialised viewable certificates;
always status 200. -/
def listViewGet (env : Env) (request_user : RequestUser) (username : String) : Response :=
  let user_certs :=
    if viewable_by_requestor env request_user username then
      (get_certificates_for_user_view env username).map cert_entry
    else []
  { status := 200, body := Body.arr user_certs }

/-- A proctoring backend configuration entry of `PROCTORING_BACKENDS`. -/
structure BackendConfig where
  allow_honor_mode : Bool
deriving DecidableEq

/-- Django settings as far as the proctoring rule reads them. -/
structure ProctoringSettings where
  PROCTORING_BACKENDS : List (String × BackendConfig)
deriving DecidableEq

/-- Association-list lookup for backend configurations. -/
def assocFind : List (String × BackendConfig) → String → Option BackendConfig
  | [], _ => none
  | (n, cfg) :: rest, name => if n = name then some cfg else assocFind rest name

/-- Lookup of a named backend configuration in the settings. -/
def lookupBackend (s : ProctoringSettings) (name : String) : Option BackendConfig :=
  assocFind s.PROCTORING_BACKENDS name

/-- Modelled from the spec: the rule behind
`edx_proctoring.can_take_proctored_exam` lives in
`lms/djangoapps/courseware/rules.py`, which is not part of this excerpt
(only its test file is).  Spec section 4.3: no enrollment or audit mode or
an unrecognized mode string is denied; verified, masters and professional
are allowed; honor is denied unless the context names a proctoring backend
whose configuration flags `allow_honor_mode`. -/
def can_take_proctored_exam (settings : ProctoringSettings)
    (mode : Option String) (backend : Option String) : Bool :=
  match mode with
  | none => false
  | some m =>
    if m = "verified" ∨ m = "masters" ∨ m = "professional" then true
    else if m = "honor" then
      match backend with
      | none => false
      | some b =>
        match lookupBackend settings b with
        | none => false
        | some cfg => cfg.allow_honor_mode
    else false

/-- A concrete user profile used in concrete evaluations. -/
def profileB : Profile := { id := 1 }

/-- A concrete user row. -/
def userB : UserRec := { username := "bob", profile := profileB }

/-- A concrete course key. -/
def ck1 : CourseKey := { str := "course-v1:edX+DemoX+1" }

/-- A concrete passing certificate record. -/
def certB : UserCert :=
  { username := "bob", course_key := ck1, type := "verified", created := 10,
    modified := 20, status := "downloadable", is_passing := true,
    download_url := "http://www.example.com/cert.pdf", grade := "0.98" }

/-- A concrete course overview. -/
def ovB : CourseOverview :=
  { display_name_with_default := "Demo Course", display_org_with_default := "edX" }

/-- A concrete environment: user `bob` with one passing certificate in a
viewable course, profile exposing `course_certificates`. -/
def envL : Env :=
  { from_string := fun s => if s = "bad id" then none else some { str := s },
    get_certificate_for_user := fun u k => if u = "bob" ∧ k = ck1 then some certB else none,
    get_certificates_for_user := fun u => if u = "bob" then [certB] else [],
    course_overviews := fun k => if k = ck1 then some ovB else none,
    certificates_viewable_for_course := fun _ => true,
    get_user := fun u => if u = "bob" then some userB else none,
    visible_fields := fun _ _ => ["course_certificates"] }

/-- A concrete environment where the profile exposes nothing. -/
def envHidden : Env :=
  { envL with visible_fields := fun _ _ => [] }

/-- The certificate owner as the requesting user. -/
def reqOwner : RequestUser := { username := "bob", is_staff := false }

/-- A non-owner, non-staff requesting user. -/
def reqStranger : RequestUser := { username := "eve", is_staff := false }

/-- The concrete viewable certificate produced by `envL` for `bob`. -/
def vcB : ViewableCert :=
  { cert := certB, course_display_name := "Demo Course", course_organization := "edX" }

lemma optOr_none {α : Type} (a : Option α) : optOr a none = a := by
  cases a <;> rfl

lemma optOr_some_absorb {α : Type} (a : Option α) (x : α) (b : Option α) :
    optOr (optOr a (some x)) b = optOr a (some x) := by
  cases a <;> rfl

lemma dictGet_dictInsert_self (d : List (CourseKey × UserCert)) (k : CourseKey) (v : UserCert) :
    dictGet (dictInsert d k v) k = some v := by
  induction d with
  | nil => simp [dictInsert, dictGet]
  | cons p rest ih =>
    obtain ⟨k', v'⟩ := p
    by_cases h : k' = k <;> simp [dictInsert, dictGet, h, ih]

lemma dictGet_dictInsert_ne (d : List (CourseKey × UserCert)) (k k' : CourseKey) (v : UserCert)
    (h : k' ≠ k) : dictGet (dictInsert d k' v) k = dictGet d k := by
  induction d with
  | nil => simp [dictInsert, dictGet, h]
  | cons p rest ih =>
    obtain ⟨k'', v''⟩ := p
    by_cases h2 : k'' = k'
    · subst h2
      simp [dictInsert, dictGet, h]
    · simp [dictInsert, dictGet, h2, ih]

lemma dictGet_foldl_passing (certs : List UserCert) (d : List (CourseKey × UserCert))
    (k : CourseKey) :
    dictGet (certs.foldl (fun d c => if c.is_passing then dictInsert d c.course_key c else d) d) k
      = optOr (lastPassing certs k) (dictGet d k) := by
  induction certs generalizing d with
  | nil => rfl
  | cons c cs ih =>
    rw [List.foldl_cons, ih, lastPassing]
    by_cases hp : c.is_passing = true
    · by_cases hk : c.course_key = k
      · subst hk
        rw [if_pos hp, dictGet_dictInsert_self, if_pos (by simp [hp]), optOr_some_absorb]
      · rw [if_pos hp, dictGet_dictInsert_ne d k c.course_key c hk,
          if_neg (by simp [hk]), optOr_none]
    · rw [if_neg hp, if_neg (by simp [hp]), optOr_none]

lemma dictGet_passingDict (env : Env) (username : String) (k : CourseKey) :
    dictGet (passingDict env username) k
      = lastPassing (env.get_certificates_for_user username) k := by
  rw [passingDict, dictGet_foldl_passing]
  exact optOr_none _

lemma lastPassing_spec (certs : List UserCert) (k : CourseKey) (c : UserCert)
    (h : lastPassing certs k = some c) : c.is_passing = true ∧ c.course_key = k := by
  induction certs with
  | nil => cases h
  | cons x cs ih =>
    rw [lastPassing] at h
    cases hl : lastPassing cs k with
    | some c' =>
      rw [hl] at h
      have hc : c' = c := by simpa [optOr] using h
      subst hc
      exact ih hl
    | none =>
      rw [hl] at h
      simp only [optOr] at h
      by_cases hx : (x.is_passing && decide (x.course_key = k)) = true
      · rw [if_pos hx] at h
        cases h
        simpa using hx
      · rw [if_neg hx] at h
        cases h

lemma insertByCreated_perm (vc : ViewableCert) (l : List ViewableCert) :
    List.Perm (insertByCreated vc l) (vc :: l) := by
  induction l with
  | nil => exact List.Perm.refl _
  | cons x xs ih =>
    rw [insertByCreated]
    by_cases h : vc.cert.created < x.cert.created
    · rw [if_pos h]
    · rw [if_neg h]
      exact (ih.cons x).trans (List.Perm.swap vc x xs)

lemma sortByCreated_perm (l : List ViewableCert) : List.Perm (sortByCreated l) l := by
  induction l with
  | nil => exact List.Perm.refl _
  | cons vc rest ih =>
    rw [sortByCreated]
    exact (insertByCreated_perm vc (sortByCreated rest)).trans (ih.cons vc)

lemma pairwise_insertByCreated (vc : ViewableCert) (l : List ViewableCert)
    (h : l.Pairwise (fun a b => a.cert.created ≤ b.cert.created)) :
    (insertByCreated vc l).Pairwise (fun a b => a.cert.created ≤ b.cert.created) := by
  induction l with
  | nil => simp [insertByCreated]
  | cons x xs ih =>
    rw [List.pairwise_cons] at h
    obtain ⟨hx, hxs⟩ := h
    rw [insertByCreated]
    by_cases hc : vc.cert.created < x.cert.created
    · rw [if_pos hc, List.pairwise_cons]
      refine ⟨?_, List.pairwise_cons.mpr ⟨hx, hxs⟩⟩
      intro y hy
      rcases List.mem_cons.mp hy with rfl | hy
      · exact Nat.le_of_lt hc
      · exact Nat.le_of_lt (Nat.lt_of_lt_of_le hc (hx y hy))
    · rw [if_neg hc, List.pairwise_cons]
      refine ⟨?_, ih hxs⟩
      intro y hy
      rcases List.mem_cons.mp ((insertByCreated_perm vc xs).mem_iff.mp hy) with rfl | hy
      · exact Nat.le_of_not_lt hc
      · exact hx y hy

lemma sortByCreated_sorted (l : List ViewableCert) :
    (sortByCreated l).Pairwise (fun a b => a.cert.created ≤ b.cert.created) := by
  induction l with
  | nil => simp [sortByCreated]
  | cons vc rest ih => exact pairwise_insertByCreated vc _ ih

lemma mem_keys_dictInsert (d : List (CourseKey × UserCert)) (k : CourseKey) (v : UserCert)
    (x : CourseKey) (h : x ∈ (dictInsert d k v).map Prod.fst) :
    x ∈ d.map Prod.fst ∨ x = k := by
  induction d with
  | nil =>
    simp [dictInsert] at h
    exact Or.inr h
  | cons p rest ih =>
    obtain ⟨k', v'⟩ := p
    by_cases h2 : k' = k
    · rw [dictInsert, if_pos h2] at h
      simp at h
      rcases h with rfl | h
      · exact Or.inl (by simp)
      · exact Or.inl (by simp [h])
    · rw [dictInsert, if_neg h2] at h
      simp at h
      rcases h with rfl | h
      · exact Or.inl (by simp)
      · rcases ih (by simpa using h) with h3 | h3
        · exact Or.inl (by simp [List.mem_map] at h3 ⊢; tauto)
        · exact Or.inr h3

lemma nodup_keys_dictInsert (d : List (CourseKey × UserCert)) (k : CourseKey) (v : UserCert)
    (h : (d.map Prod.fst).Nodup) : ((dictInsert d k v).map Prod.fst).Nodup := by
  induction d with
  | nil => simp [dictInsert]
  | cons p rest ih =>
    obtain ⟨k', v'⟩ := p
    rw [List.map_cons, List.nodup_cons] at h
    obtain ⟨hk', hrest⟩ := h
    by_cases h2 : k' = k
    · rw [dictInsert, if_pos h2, List.map_cons, List.nodup_cons]
      exact ⟨hk', hrest⟩
    · rw [dictInsert, if_neg h2, List.map_cons, List.nodup_cons]
      refine ⟨?_, ih hrest⟩
      intro hmem
      rcases mem_keys_dictInsert rest k v k' hmem with h3 | h3
      · exact hk' h3
      · exact h2 h3

lemma nodup_keys_passingDict (env : Env) (username : String) :
    ((passingDict env username).map Prod.fst).Nodup := by
  rw [passingDict]
  generalize env.get_certificates_for_user username = certs
  have base : (([] : List (CourseKey × UserCert)).map Prod.fst).Nodup := by simp
  revert base
  generalize ([] : List (CourseKey × UserCert)) = d
  induction certs generalizing d with
  | nil => intro h; simpa using h
  | cons c cs ih =>
    intro h
    rw [List.foldl_cons]
    by_cases hp : c.is_passing = true
    · rw [if_pos hp] at *
      exact ih _ (nodup_keys_dictInsert d c.course_key c h)
    · rw [if_neg hp] at *
      exact ih _ h

lemma nodup_filterMap_keys {α β γ : Type} (f : α → Option β) (key : α → γ) (kb : β → γ)
    (hf : ∀ a b, f a = some b → kb b = key a) (l : List α)
    (h : (l.map key).Nodup) : ((l.filterMap f).map kb).Nodup := by
  induction l with
  | nil => simp
  | cons a l ih =>
    rw [List.map_cons, List.nodup_cons] at h
    obtain ⟨hna, hl⟩ := h
    rw [List.filterMap_cons]
    cases hfa : f a with
    | none => exact ih hl
    | some b =>
      rw [List.map_cons, List.nodup_cons]
      refine ⟨?_, ih hl⟩
      intro hmem
      rw [List.mem_map] at hmem
      obtain ⟨c, hc, hkc⟩ := hmem
      rw [List.mem_filterMap] at hc
      obtain ⟨a', ha', hfa'⟩ := hc
      refine hna ?_
      rw [List.mem_map]
      refine ⟨a', ha', ?_⟩
      rw [← hf a' c hfa', hkc, hf a b hfa]

lemma dictGet_passingDict_spec (env : Env) (username : String) (k : CourseKey) (c : UserCert)
    (h : dictGet (passingDict env username) k = some c) :
    c.is_passing = true ∧ c.course_key = k := by
  rw [dictGet_passingDict] at h
  exact lastPassing_spec _ _ _ h

lemma mem_viewableList (env : Env) (username : String) (vc : ViewableCert)
    (h : vc ∈ viewableList env username) :
    vc.cert.is_passing = true ∧
    dictGet (passingDict env username) vc.cert.course_key = some vc.cert ∧
    ∃ ov, env.course_overviews vc.cert.course_key = some ov ∧
      env.certificates_viewable_for_course ov = true ∧
      vc.course_display_name = ov.display_name_with_default ∧
      vc.course_organization = ov.display_org_with_default := by
  rw [viewableList, List.mem_filterMap] at h
  obtain ⟨p, hp, hfp⟩ := h
  rw [get_from_ids_if_exists, List.mem_filterMap] at hp
  obtain ⟨k, hkmem, hk⟩ := hp
  rw [Option.map_eq_some'] at hk
  obtain ⟨ov, hov, hpair⟩ := hk
  subst hpair
  dsimp only at hfp
  by_cases hv : env.certificates_viewable_for_course ov = true
  · rw [if_pos hv, Option.map_eq_some'] at hfp
    obtain ⟨c, hget, hvc⟩ := hfp
    obtain ⟨hpass, hkey⟩ := dictGet_passingDict_spec env username k c hget
    subst hvc
    refine ⟨hpass, ?_, ov, ?_, hv, rfl, rfl⟩
    · dsimp only
      rw [hkey]
      exact hget
    · dsimp only
      rw [hkey]
      exact hov
  · rw [if_neg hv] at hfp
    cases hfp

lemma viewableList_keys_nodup (env : Env) (username : String) :
    ((viewableList env username).map (fun vc => vc.cert.course_key)).Nodup := by
  rw [viewableList]
  refine nodup_filterMap_keys _ Prod.fst (fun vc : ViewableCert => vc.cert.course_key) ?_ _ ?_
  · intro p vc hfp
    by_cases hv : env.certificates_viewable_for_course p.2 = true
    · rw [if_pos hv, Option.map_eq_some'] at hfp
      obtain ⟨c, hget, hvc⟩ := hfp
      obtain ⟨_, hkey⟩ := dictGet_passingDict_spec env username p.1 c hget
      subst hvc
      exact hkey
    · rw [if_neg hv] at hfp
      cases hfp
  · refine nodup_filterMap_keys _ (fun k => k) Prod.fst ?_ _ ?_
    · intro k p hk
      rw [Option.map_eq_some'] at hk
      obtain ⟨ov, _, hpair⟩ := hk
      rw [← hpair]
    · simpa using nodup_keys_passingDict env username

lemma mem_get_certificates_for_user_view (env : Env) (username : String) (vc : ViewableCert)
    (h : vc ∈ get_certificates_for_user_view env username) :
    vc ∈ viewableList env username := by
  rw [get_certificates_for_user_view] at h
  exact (sortByCreated_perm _).mem_iff.mp h

/-- C1: for every authorized request to the certificate list endpoint the
response is status 200 carrying the serialised certificate list, every
certificate in that list is marked passing and belongs to a course whose
overview exists and whose certificates are viewable, and the list is sorted
ascending by the certificate's creation timestamp. -/
theorem certificates_list_passing_viewable_sorted (env : Env)
    (request_user : RequestUser) (username : String)
    (hauth : viewable_by_requestor env request_user username = true) :
    listViewGet env request_user username =
      { status := 200,
        body := Body.arr ((get_certificates_for_user_view env username).map cert_entry) } ∧
    (∀ vc ∈ get_certificates_for_user_view env username,
      vc.cert.is_passing = true ∧
      ∃ ov, env.course_overviews vc.cert.course_key = some ov ∧
        env.certificates_viewable_for_course ov = true) ∧
    (get_certificates_for_user_view env username).Pairwise
      (fun a b => a.cert.created ≤ b.cert.created) := by
  refine ⟨?_, ?_, ?_⟩
  · rw [listViewGet]
    simp [hauth]
  · intro vc hvc
    obtain ⟨hpass, _, ov, hov, hview, _, _⟩ :=
      mem_viewableList env username vc (mem_get_certificates_for_user_view env username vc hvc)
    exact ⟨hpass, ov, hov, hview⟩
  · rw [get_certificates_for_user_view]
    exact sortByCreated_sorted _

/-- Witness for C1: the owner's request against the concrete environment. -/
theorem certificates_list_passing_viewable_sorted_witness :
    viewable_by_requestor envL reqOwner "bob" = true ∧
    (listViewGet envL reqOwner "bob" =
      { status := 200,
        body := Body.arr ((get_certificates_for_user_view envL "bob").map cert_entry) } ∧
    (∀ vc ∈ get_certificates_for_user_view envL "bob",
      vc.cert.is_passing = true ∧
      ∃ ov, envL.course_overviews vc.cert.course_key = some ov ∧
        envL.certificates_viewable_for_course ov = true) ∧
    (get_certificates_for_user_view envL "bob").Pairwise
      (fun a b => a.cert.created ≤ b.cert.created)) :=
  ⟨by decide, certificates_list_passing_viewable_sorted envL reqOwner "bob" (by decide)⟩

/-- C2 as stated is false: at a concrete valid course id with an existing
certificate record, the detail endpoint answers 200 but its body is a
record of eight fields, not nine. -/
theorem certificate_detail_nine_fields_counterexample :
    envL.from_string "course-v1:edX+DemoX+1" = some ck1 ∧
    envL.get_certificate_for_user "bob" ck1 = some certB ∧
    (detailViewGet envL "bob" "course-v1:edX+DemoX+1").status = 200 ∧
    (detailViewGet envL "bob" "course-v1:edX+DemoX+1").body = Body.obj (detail_fields certB) ∧
    (detail_fields certB).length = 8 ∧
    (detail_fields certB).length ≠ 9 :=
  ⟨by decide, by decide, by decide, by decide, by decide, by decide⟩

/-- C2 amended: for every request to the single-certificate endpoint with a
valid course identifier and an existing certificate record, the response
has status 200 and its body is a fixed-shape record of eight fields, each
populated from the certificate record. -/
theorem certificate_detail_success_eight_fields (env : Env)
    (username course_id : String) (ck : CourseKey) (cert : UserCert)
    (hp : env.from_string course_id = some ck)
    (hc : env.get_certificate_for_user username ck = some cert) :
    detailViewGet env username course_id =
      { status := 200, body := Body.obj (detail_fields cert) } ∧
    (detail_fields cert).map Prod.fst =
      ["username", "course_id", "certificate_type", "created_date",
       "status", "is_passing", "download_url", "grade"] ∧
    (detail_fields cert).length = 8 := by
  refine ⟨?_, rfl, rfl⟩
  simp [detailViewGet, hp, hc]

/-- Witness for the amended C2 at a concrete record. -/
theorem certificate_detail_success_eight_fields_witness :
    envL.from_string "course-v1:edX+DemoX+1" = some ck1 ∧
    envL.get_certificate_for_user "bob" ck1 = some certB ∧
    (detailViewGet envL "bob" "course-v1:edX+DemoX+1" =
      { status := 200, body := Body.obj (detail_fields certB) } ∧
    (detail_fields certB).map Prod.fst =
      ["username", "course_id", "certificate_type", "created_date",
       "status", "is_passing", "download_url", "grade"] ∧
    (detail_fields certB).length = 8) :=
  ⟨by decide, by decide,
    certificate_detail_success_eight_fields envL "bob" "course-v1:edX+DemoX+1" ck1 certB
      (by decide) (by decide)⟩

/-- C3: a request to the list endpoint by a requestor who is not the owner,
not staff, and for whom the target profile's visible fields do not include
certificates, answers status 200 with an empty list, never an error. -/
theorem certificates_list_unauthorized_empty (env : Env) (request_user : RequestUser)
    (username : String) (user : UserRec)
    (hu : env.get_user username = some user)
    (howner : request_user.username ≠ username)
    (hstaff : request_user.is_staff = false)
    (hvis : "course_certificates" ∉ env.visible_fields user.profile user) :
    listViewGet env request_user username = { status := 200, body := Body.arr [] } := by
  have hv : viewable_by_requestor env request_user username = false := by
    simp [viewable_by_requestor, hu, howner, hstaff, hvis]
  rw [listViewGet]
  simp [hv]

/-- Witness for C3: a stranger's request against the hidden-profile
environment. -/
theorem certificates_list_unauthorized_empty_witness :
    envHidden.get_user "bob" = some userB ∧
    reqStranger.username ≠ "bob" ∧
    reqStranger.is_staff = false ∧
    "course_certificates" ∉ envHidden.visible_fields userB.profile userB ∧
    listViewGet envHidden reqStranger "bob" = { status := 200, body := Body.arr [] } :=
  ⟨by decide, by decide, by decide, by decide,
    certificates_list_unauthorized_empty envHidden reqStranger "bob" userB
      (by decide) (by decide) (by decide) (by decide)⟩

/-- C4: when the course id does not parse, the detail endpoint answers 404
with `course_id_not_valid`, and the response does not depend on the
certificate-lookup function (no certificate lookup is performed). -/
theorem certificate_detail_invalid_course_id (env : Env) (username course_id : String)
    (h : env.from_string course_id = none) :
    detailViewGet env username course_id =
      { status := 404, body := Body.obj [("error_code", Value.s "course_id_not_valid")] } ∧
    ∀ f, detailViewGet { env with get_certificate_for_user := f } username course_id =
      { status := 404, body := Body.obj [("error_code", Value.s "course_id_not_valid")] } := by
  constructor
  · simp [detailViewGet, h]
  · intro f
    simp [detailViewGet, h]

/-- Witness for C4 at a concrete malformed course id. -/
theorem certificate_detail_invalid_course_id_witness :
    envL.from_string "bad id" = none ∧
    (detailViewGet envL "bob" "bad id" =
      { status := 404, body := Body.obj [("error_code", Value.s "course_id_not_valid")] } ∧
    ∀ f, detailViewGet { envL with get_certificate_for_user := f } "bob" "bad id" =
      { status := 404, body := Body.obj [("error_code", Value.s "course_id_not_valid")] }) :=
  ⟨by decide, certificate_detail_invalid_course_id envL "bob" "bad id" (by decide)⟩

/-- C5: with a valid course identifier but no certificate record, the
detail endpoint answers 404 with `no_certificate_for_user`, a code distinct
from the invalid-identifier code. -/
theorem certificate_detail_no_certificate (env : Env) (username course_id : String)
    (ck : CourseKey)
    (hp : env.from_string course_id = some ck)
    (hc : env.get_certificate_for_user username ck = none) :
    detailViewGet env username course_id =
      { status := 404, body := Body.obj [("error_code", Value.s "no_certificate_for_user")] } ∧
    "no_certificate_for_user" ≠ "course_id_not_valid" := by
  refine ⟨?_, by decide⟩
  simp [detailViewGet, hp, hc]

/-- Witness for C5: a user with no certificate in a valid course. -/
theorem certificate_detail_no_certificate_witness :
    envL.from_string "course-v1:edX+DemoX+1" = some ck1 ∧
    envL.get_certificate_for_user "alice" ck1 = none ∧
    (detailViewGet envL "alice" "course-v1:edX+DemoX+1" =
      { status := 404, body := Body.obj [("error_code", Value.s "no_certificate_for_user")] } ∧
    "no_certificate_for_user" ≠ "course_id_not_valid") :=
  ⟨by decide, by decide,
    certificate_detail_no_certificate envL "alice" "course-v1:edX+DemoX+1" ck1
      (by decide) (by decide)⟩

/-- C6: the proctored-exam permission without a named backend denies no
enrollment, audit and the unrecognized mode `no-id-professional`, and
allows verified, masters and professional, for every settings value. -/
theorem proctoring_permission_modes (s : ProctoringSettings) :
    can_take_proctored_exam s none none = false ∧
    can_take_proctored_exam s (some "audit") none = false ∧
    can_take_proctored_exam s (some "no-id-professional") none = false ∧
    can_take_proctored_exam s (some "verified") none = true ∧
    can_take_proctored_exam s (some "masters") none = true ∧
    can_take_proctored_exam s (some "professional") none = true :=
  ⟨rfl, rfl, rfl, rfl, rfl, rfl⟩

/-- C7: in honor enrollment mode the proctored-exam permission is denied by
default (no backend named), and is granted exactly when the context names a
backend whose configuration sets `allow_honor_mode` to true. -/
theorem proctoring_permission_honor_mode (s : ProctoringSettings) (backend : Option String) :
    can_take_proctored_exam s (some "honor") none = false ∧
    (can_take_proctored_exam s (some "honor") backend = true ↔
      ∃ b cfg, backend = some b ∧ lookupBackend s b = some cfg ∧
        cfg.allow_honor_mode = true) := by
  have hred : ∀ bk : Option String, can_take_proctored_exam s (some "honor") bk =
      (match bk with
       | none => false
       | some b =>
         match lookupBackend s b with
         | none => false
         | some cfg => cfg.allow_honor_mode) := fun bk => rfl
  constructor
  · rw [hred]
  · rw [hred]
    cases backend with
    | none => simp
    | some b =>
      cases hl : lookupBackend s b with
      | none => simp [hl]
      | some cfg => simp [hl]

/-- C8: in the certificate list each course key appears at most once, and
each listed certificate is the last passing certificate encountered for its
course key (earlier ones are overwritten in the per-course dict). -/
theorem certificates_list_course_keys_unique (env : Env) (username : String) :
    ((get_certificates_for_user_view env username).map (fun vc => vc.cert.course_key)).Nodup ∧
    ∀ vc ∈ get_certificates_for_user_view env username,
      lastPassing (env.get_certificates_for_user username) vc.cert.course_key =
        some vc.cert := by
  constructor
  · rw [get_certificates_for_user_view]
    exact (((sortByCreated_perm (viewableList env username)).map
      (fun vc => vc.cert.course_key)).nodup_iff).mpr (viewableList_keys_nodup env username)
  · intro vc hvc
    obtain ⟨_, hget, _⟩ := mem_viewableList env username vc
      (mem_get_certificates_for_user_view env username vc hvc)
    rw [← dictGet_passingDict]
    exact hget

/-- C9: a list request naming a username with no user record makes the
visibility check false and yields status 200 with an empty list, the same
response as the unauthorized-requestor case. -/
theorem certificates_list_unknown_user_empty (env : Env) (request_user : RequestUser)
    (username : String) (hu : env.get_user username = none) :
    viewable_by_requestor env request_user username = false ∧
    listViewGet env request_user username = { status := 200, body := Body.arr [] } := by
  have hv : viewable_by_requestor env request_user username = false := by
    simp [viewable_by_requestor, hu]
  refine ⟨hv, ?_⟩
  rw [listViewGet]
  simp [hv]

/-- Witness for C9 at a username with no user record. -/
theorem certificates_list_unknown_user_empty_witness :
    envL.get_user "nobody" = none ∧
    (viewable_by_requestor envL reqOwner "nobody" = false ∧
    listViewGet envL reqOwner "nobody" = { status := 200, body := Body.arr [] }) :=
  ⟨by decide, certificates_list_unknown_user_empty envL reqOwner "nobody" (by decide)⟩

/-- C10: every entry of a certificate list response has exactly these
eleven keys in order (including `modified_date`, absent from the documented
shape), its `modified_date` value is the record's `modified` timestamp, and
its `course_id` value is the string rendering of the record's course
key. -/
theorem certificates_list_entry_shape (env : Env) (request_user : RequestUser)
    (username : String) (items : List (List (String × Value)))
    (entry : List (String × Value))
    (hb : (listViewGet env request_user username).body = Body.arr items)
    (he : entry ∈ items) :
    entry.map Prod.fst =
      ["username", "course_id", "course_display_name", "course_organization",
       "certificate_type", "created_date", "modified_date", "status",
       "is_passing", "download_url", "grade"] ∧
    entry.length = 11 ∧
    ∃ vc ∈ get_certificates_for_user_view env username,
      entry = cert_entry vc ∧
      ("modified_date", Value.n vc.cert.modified) ∈ entry ∧
      ("course_id", Value.s (text_type vc.cert.course_key)) ∈ entry := by
  rw [listViewGet] at hb
  by_cases hv : viewable_by_requestor env request_user username = true
  · simp only [hv, if_true, Body.arr.injEq] at hb
    subst hb
    rw [List.mem_map] at he
    obtain ⟨vc, hvc, hentry⟩ := he
    subst hentry
    refine ⟨rfl, rfl, vc, hvc, rfl, ?_, ?_⟩
    · simp [cert_entry]
    · simp [cert_entry]
  · simp only [Bool.not_eq_true] at hv
    simp only [hv, Bool.false_eq_true, if_false, Body.arr.injEq] at hb
    subst hb
    cases he

/-- Witness for C10 at the concrete owner request with one certificate. -/
theorem certificates_list_entry_shape_witness :
    (listViewGet envL reqOwner "bob").body = Body.arr [cert_entry vcB] ∧
    cert_entry vcB ∈ [cert_entry vcB] ∧
    ((cert_entry vcB).map Prod.fst =
      ["username", "course_id", "course_display_name", "course_organization",
       "certificate_type", "created_date", "modified_date", "status",
       "is_passing", "download_url", "grade"] ∧
    (cert_entry vcB).length = 11 ∧
    ∃ vc ∈ get_certificates_for_user_view envL "bob",
      cert_entry vcB = cert_entry vc ∧
      ("modified_date", Value.n vc.cert.modified) ∈ cert_entry vcB ∧
      ("course_id", Value.s (text_type vc.cert.course_key)) ∈ cert_entry vcB) :=
  ⟨by decide, by decide,
    certificates_list_entry_shape envL reqOwner "bob" [cert_entry vcB] (cert_entry vcB)
      (by decide) (by decide)⟩
